import Mathlib

/-!
Verification development for the Lawton lake gate-operations flow script
(`src/dev.py`).  The script repairs a hand-maintained gate-operation log,
normalizes its free-text time encodings, converts gate openings from inches
to feet, computes a discharge per open gate with a weir flow formula whose
coefficient comes from a per-reservoir rating curve, and hands the resulting
(timestamp, total flow) series to a DSS time-series sink.

The definitions below are a shallow embedding of that script: pandas cells
become an explicit `Cell` type, dataframe column slices become list
operations, Python floats become real numbers (`ℝ`) or, where the code only
moves data around, rationals (`ℚ`), and code that can raise becomes
`Option`.  Theorems about the embedding follow the definitions.
-/

open Classical

/-- Python `str.strip` on a list of characters: drop leading and trailing
whitespace. -/
def pyStrip (cs : List Char) : List Char :=
  ((cs.dropWhile Char.isWhitespace).reverse.dropWhile Char.isWhitespace).reverse

/-- Python `str.upper` on a list of characters (the data here is ASCII). -/
def pyUpper (cs : List Char) : List Char :=
  cs.map Char.toUpper

/-- Numeric value of a decimal digit character. -/
def digitVal (c : Char) : ℕ := c.toNat - 48

/-- Python `f"{n:02}"`: decimal rendering of `n`, left padded with `0` to
width 2. -/
def pad2 (n : ℕ) : String :=
  if n < 10 then "0" ++ toString n else toString n

/-- The 12-hour to 24-hour conversion inside the AM/PM branch of
`normalize_time_string` (src/dev.py lines 100-105): `P` with hour ≠ 12 adds
12, `A` with hour = 12 gives 0, anything else passes through. -/
def ampmHour (h : ℕ) (ap : Char) : ℕ :=
  if ap = 'P' ∧ h ≠ 12 then h + 12
  else if ap = 'A' ∧ h = 12 then 0
  else h

/-- `normalize_time_string` (src/dev.py lines 82-121).  The Python function
strips and upcases the input, then tries in order: the regex
`^(\d{1,2}):(\d{2})([AP])$` (12-hour clock), the regex `^(\d{1,2}):(\d{2})$`,
and `str.isdigit` with special cases for lengths 3, 4 and 5; on no match the
(stripped, upcased) string is returned unchanged.  The regexes are embedded
as the corresponding shape matches on the character list; the branches are
mutually exclusive by shape, so trying them in order and matching on shape
agree.  (`"".isdigit()` is false in Python, and the empty list also falls
through to the identity branch here, so the two agree on the empty string as
well.)  The `pd.isna` guard on a missing cell is handled by the callers in
this embedding, which only apply the function to present cells. -/
def normalize_time_string (s0 : String) : String :=
  let cs := pyUpper (pyStrip s0.toList)
  match cs with
  | [h, ':', m1, m2, ap] =>
    if h.isDigit && m1.isDigit && m2.isDigit && (ap == 'A' || ap == 'P') then
      pad2 (ampmHour (digitVal h) ap) ++ ":" ++ String.mk [m1, m2] ++ ":00"
    else String.mk cs
  | [h1, h2, ':', m1, m2, ap] =>
    if h1.isDigit && h2.isDigit && m1.isDigit && m2.isDigit && (ap == 'A' || ap == 'P') then
      pad2 (ampmHour (10 * digitVal h1 + digitVal h2) ap) ++ ":" ++ String.mk [m1, m2] ++ ":00"
    else String.mk cs
  | [h, ':', m1, m2] =>
    if h.isDigit && m1.isDigit && m2.isDigit then
      pad2 (digitVal h) ++ ":" ++ String.mk [m1, m2] ++ ":00"
    else String.mk cs
  | [h1, h2, ':', m1, m2] =>
    if h1.isDigit && h2.isDigit && m1.isDigit && m2.isDigit then
      pad2 (10 * digitVal h1 + digitVal h2) ++ ":" ++ String.mk [m1, m2] ++ ":00"
    else String.mk cs
  | _ =>
    if cs.all Char.isDigit then
      match cs with
      | [a, b, c] => pad2 (digitVal a) ++ ":" ++ String.mk [b, c] ++ ":00"
      | [a, b, c, d] => String.mk [a, b] ++ ":" ++ String.mk [c, d] ++ ":00"
      | [a, b, c, d, e] => String.mk [a, b] ++ ":" ++ String.mk [c, d] ++ ":" ++ String.mk [e]
      | _ => String.mk cs
    else String.mk cs

/-- A raw gate-log row as the row-filtering fragment of the script sees it:
the `Date` cell, the `Time` cell and the `Lake Elevation` cell, each
possibly missing (`none` models pandas `NaN`).  The gate cells play no part
in row retention and are omitted from this structure. -/
structure RawRow where
  date : Option String
  time : Option String
  lake : Option ℚ

/-- Forward fill of the `Date` column
(`df['Date'].fillna(method='ffill')`, src/dev.py line 67): a missing date is
replaced by the most recent present one; `last` is the value carried in from
before the block (initially `none`). -/
def ffill_dates (last : Option String) : List RawRow → List RawRow
  | [] => []
  | r :: rs =>
    match r.date with
    | some d => r :: ffill_dates (some d) rs
    | none => { r with date := last } :: ffill_dates last rs

/-- First `dropna(subset=['Time', 'Lake Elevation'])` (src/dev.py line 72):
a row is kept only when both the `Time` and the `Lake Elevation` cells are
present (pandas drops a row when any column of the subset is missing). -/
def drop_missing_time_or_elev (rows : List RawRow) : List RawRow :=
  rows.filter fun r => r.time.isSome && r.lake.isSome

/-- A row after the `Time` column has been normalized and parsed
(src/dev.py lines 124-141); `T` is the type of parsed time-of-day values
produced by the external `dateutil` parser. -/
structure ParsedRow (T : Type) where
  date : Option String
  ptime : Option T
  lake : Option ℚ

/-- The two `Time`-column rewrites of src/dev.py lines 124 and 140:
`normalize_time_string` followed by `parse_time`.  `parse_time` wraps the
external `dateutil` parser in try/except, returning `NaT` on failure, so it
is modelled by an arbitrary partial parsing function
`parse : String → Option T`. -/
def normalize_and_parse_times (T : Type) (parse : String → Option T)
    (rows : List RawRow) : List (ParsedRow T) :=
  rows.map fun r => ⟨r.date, (r.time.map normalize_time_string).bind parse, r.lake⟩

/-- Second `dropna(subset=['Time', 'Lake Elevation'])` (src/dev.py line
144): rows whose time failed to parse (`NaT`) are dropped here. -/
def drop_unparsed (T : Type) (rows : List (ParsedRow T)) : List (ParsedRow T) :=
  rows.filter fun r => r.ptime.isSome && r.lake.isSome

/-- The row-retention fragment of the Observation Builder (src/dev.py lines
67-145): forward fill dates, drop rows missing `Time` or `Lake Elevation`,
normalize and parse the time strings, then drop rows whose time did not
parse. -/
def observation_stream (T : Type) (parse : String → Option T)
    (last : Option String) (rows : List RawRow) : List (ParsedRow T) :=
  drop_unparsed T (normalize_and_parse_times T parse (drop_missing_time_or_elev (ffill_dates last rows)))

/-- A pandas cell of the repaired gate table: missing (`NaN`), numeric, or a
raw string. -/
inductive Cell where
  | nan : Cell
  | num : ℚ → Cell
  | str : String → Cell
  deriving DecidableEq

/-- Digits of a decimal numeral as a natural number; `none` when empty or
containing a non-digit. -/
def parseNatDigits (cs : List Char) : Option ℕ :=
  if cs = [] then none
  else if cs.all Char.isDigit then
    some (cs.foldl (fun n c => 10 * n + digitVal c) 0)
  else none

/-- Model of `pd.to_numeric` on a string cell, for the plain decimal
numerals that appear in the gate log: optional sign, integer part, optional
fractional part.  Anything else fails (and `errors='coerce'` then turns the
failure into `NaN`). -/
def parseRat (s : String) : Option ℚ :=
  let cs := pyStrip s.toList
  let sgn : ℚ := match cs with
    | '-' :: _ => -1
    | _ => 1
  let body : List Char := match cs with
    | '-' :: rest => rest
    | '+' :: rest => rest
    | _ => cs
  let ip := body.takeWhile (fun c => c != '.')
  let rest := body.dropWhile (fun c => c != '.')
  match rest with
  | [] => (parseNatDigits ip).map (fun n => sgn * (n : ℚ))
  | _ :: frac =>
    if ip = [] ∧ frac = [] then none
    else
      match (if ip = [] then some 0 else parseNatDigits ip),
            (if frac = [] then some 0 else parseNatDigits frac) with
      | some n, some f => some (sgn * ((n : ℚ) + (f : ℚ) / (10 : ℚ) ^ frac.length))
      | _, _ => none

/-- pandas `.round(2)`, modelled over `ℚ` as rounding to two decimals (ties
away from the model's concern: the concrete data in this development never
sits exactly on a half-cent boundary, where numpy would round half to
even). -/
def round2Q (q : ℚ) : ℚ := (round (q * 100) : ℤ) / 100

/-- `fillna(0)` on one cell (src/dev.py line 157). -/
def fillna0 (c : Cell) : Cell :=
  match c with
  | Cell.nan => Cell.num 0
  | x => x

/-- `replace(r'"', '', regex=True)` on one cell (src/dev.py line 160): the
regex substitution deletes every `"` character of a string cell and leaves
non-string cells alone. -/
def stripQuoteChars (c : Cell) : Cell :=
  match c with
  | Cell.str s => Cell.str (String.mk (s.toList.filter (fun ch => ch != '"')))
  | x => x

/-- `pd.to_numeric(errors='coerce').fillna(0)` on one cell (src/dev.py line
161): numbers pass through, parseable strings are parsed, everything else
(including the coercion failures that become `NaN`) ends up 0. -/
def coerceNum (c : Cell) : ℚ :=
  match c with
  | Cell.nan => 0
  | Cell.num v => v
  | Cell.str s => (parseRat s).getD 0

/-- The per-cell effect of src/dev.py lines 157-167 on every cell the block
touches: `fillna(0)`, strip `"` characters, coerce to a number, divide by 12
(inches to feet), and `.round(2)`.  (Line 166 re-applies `pd.to_numeric` and
`fillna(0)` to the already-numeric result, which is the identity.) -/
def convertCell (c : Cell) : ℚ :=
  round2Q (coerceNum (stripQuoteChars (fillna0 c)) / 12)

/-- Src/dev.py lines 157-167 applied to one repaired row.  The recipe is
assigned to `df.iloc[:, 2:]`, i.e. to every column from position 2 on.  At
this point in the script the columns are, in order: `Date` (0), `Time` (1),
`Lake Elevation` (2), the unused fourth column (3), then the gate columns
(4 onward) — the spec's input schema (`Date`, `Time`, `Lake Elevation`, gate
block from column 4) with the planned drop of `Time` and of the fourth
column (src/dev.py lines 151-153) left commented out. -/
def apply_inches_to_feet (row : List Cell) : List Cell :=
  row.take 2 ++ (row.drop 2).map (fun c => Cell.num (convertCell c))

/-- The fields of the pydsstools `TimeSeriesContainer` that `write_to_dss`
fills in (src/dev.py lines 292-300).  Timestamps are modelled as integers
(ordered time ticks). -/
structure TimeSeriesContainer where
  pathname : String
  numberValues : ℕ
  times : List ℤ
  values : List ℝ
  units : String
  type : String
  interval : ℤ

/-- `write_to_dss` (src/dev.py lines 277-303) up to the external DSS sink
call: the container's `times` are the dataframe's index
(`df.index.to_numpy()`) and its `values` the `Total Flow (cfs)` column
(`df["Total Flow (cfs)"].tolist()`), both in dataframe row order; the
dataframe is modelled as its list of (timestamp, total flow) rows, in order.
Nothing between `set_index` (line 261, order-preserving) and this call
reorders the rows. -/
def write_to_dss (df : List (ℤ × ℝ)) (pathname : String) : TimeSeriesContainer :=
  { pathname := pathname
    numberValues := df.length
    times := df.map Prod.fst
    values := df.map Prod.snd
    units := "cfs"
    type := "INST"
    interval := -1 }

/-- A reservoir rating curve as `calculate_flow` consumes it: the rows of
the rating-curve dataframe as (`d`, `C`) pairs in table order, plus whether
the dataframe's `name` attribute contains `'Lawtonka'` (src/dev.py lines
222, 240-241), which selects the spillway invert elevation. -/
structure RatingCurve where
  entries : List (ℝ × ℝ)
  nameContainsLawtonka : Bool

/-- The spillway invert elevation chosen inside `calculate_flow`
(src/dev.py line 222): `1335.55 if 'Lawtonka' in rating_curve.name else
1225.00`. -/
noncomputable def spillway_invert_elevation (rc : RatingCurve) : ℝ :=
  if rc.nameContainsLawtonka then 1335.55 else 1225.00

/-- The exact-match lookup `rating_curve[rating_curve['d'] == gate_opening]`
followed by `row['C'].values[0]` (src/dev.py lines 204, 214): the first
table row whose `d` equals the query, if any. -/
noncomputable def findExact (q : ℝ) : List (ℝ × ℝ) → Option (ℝ × ℝ)
  | [] => none
  | e :: es => if e.1 = q then some e else findExact q es

/-- The fallback `(valid_d - gate_opening).abs().idxmin()` (src/dev.py lines
208-212): the first table row whose `d` minimizes the absolute difference
from the query (`idxmin` returns the first occurrence of the minimum); on an
empty table `idxmin` raises, modelled by `none`.  The entries here carry
real `d` values, so the `dropna` preceding `idxmin` is the identity.
`closerOf e q r` combines the entry `e` with the best entry `r` of the rows
after it: the later entry wins only when strictly closer, which is exactly
`idxmin` returning the first occurrence of the minimum. -/
noncomputable def closerOf (e : ℝ × ℝ) (q : ℝ) : Option (ℝ × ℝ) → Option (ℝ × ℝ)
  | none => some e
  | some b => if |b.1 - q| < |e.1 - q| then some b else some e

/-- The nearest-entry fallback itself: fold `closerOf` over the table. -/
noncomputable def closestEntry (q : ℝ) : List (ℝ × ℝ) → Option (ℝ × ℝ)
  | [] => none
  | e :: es => closerOf e q (closestEntry q es)

/-- `get_coefficient_of_discharge` (src/dev.py lines 202-216): exact match
on `d` first, nearest stored `d` otherwise; `none` models the exception on
an empty curve. -/
noncomputable def get_coefficient_of_discharge (q : ℝ) (entries : List (ℝ × ℝ)) : Option ℝ :=
  match findExact q entries with
  | some e => some e.2
  | none => (closestEntry q entries).map Prod.snd

/-- The arithmetic part of `calculate_flow` (src/dev.py lines 219-227) once
the coefficient `C` has been obtained: with `g = 32.2`, `L = 20.0`,
`H1 = lake_elevation - spillway_invert_elevation` and `H2 = H1 -
gate_opening`, return `0.0` when `H2 < 0` and otherwise
`(2/3) * (g**0.5) * C * L * (H1**(3/2) - H2**(3/2))` (note the source
multiplies by `g**0.5`, the square root of `g` alone). -/
noncomputable def flowFormula (C gate_opening lake_elevation : ℝ) (rc : RatingCurve) : ℝ :=
  if lake_elevation - spillway_invert_elevation rc - gate_opening < 0 then 0
  else
    (2 / 3) * (32.2 : ℝ) ^ (0.5 : ℝ) * C * 20.0 *
      ((lake_elevation - spillway_invert_elevation rc) ^ ((3 : ℝ) / 2) -
        (lake_elevation - spillway_invert_elevation rc - gate_opening) ^ ((3 : ℝ) / 2))

/-- `calculate_flow` (src/dev.py lines 218-227).  The coefficient lookup on
line 220 runs before the `H2 < 0` test on line 224, so a failing lookup
(empty curve) fails the whole call — hence the `Option.map`: `none` from
the lookup propagates regardless of the head values. -/
noncomputable def calculate_flow (gate_opening lake_elevation : ℝ) (rc : RatingCurve) : Option ℝ :=
  (get_coefficient_of_discharge gate_opening rc.entries).map
    (fun C => flowFormula C gate_opening lake_elevation rc)

/-- The accumulation loop of `calculate_total_flow` (src/dev.py lines
231-235): walk the cells of `row[2:]` and add `calculate_flow` for each cell
strictly greater than 0, skipping the rest; a raising `calculate_flow`
(empty curve) aborts the whole row, hence the `Option` plumbing. -/
noncomputable def sumGateFlows (lake_elevation : ℝ) (rc : RatingCurve) : List ℝ → Option ℝ
  | [] => some 0
  | g :: gs =>
    if 0 < g then
      match calculate_flow g lake_elevation rc, sumGateFlows lake_elevation rc gs with
      | some f, some t => some (f + t)
      | _, _ => none
    else sumGateFlows lake_elevation rc gs

/-- Rounding to two decimals over `ℝ` (`round(total_flow, 2)`). -/
noncomputable def round2R (x : ℝ) : ℝ := (round (x * 100) : ℤ) / 100

/-- `calculate_total_flow` (src/dev.py lines 229-237): sum the per-gate
flows over the cells of `row[2:]` (which, in the script's column layout,
begin with the `Lake Elevation` cell and the unused fourth column before the
gate cells) at the row's `Lake Elevation`, then round to two decimals. -/
noncomputable def calculate_total_flow (lake_elevation : ℝ) (row2on : List ℝ)
    (rc : RatingCurve) : Option ℝ :=
  (sumGateFlows lake_elevation rc row2on).map round2R

/-- If the exact-match pass returns an entry, that entry is in the table and
its `d` equals the query. -/
theorem findExact_mem_eq {q : ℝ} : ∀ {entries : List (ℝ × ℝ)} {e : ℝ × ℝ},
    findExact q entries = some e → e ∈ entries ∧ e.1 = q := by
  intro entries
  induction entries with
  | nil => intro e h; simp [findExact] at h
  | cons a as ih =>
    intro e h
    simp only [findExact] at h
    by_cases ha : a.1 = q
    · rw [if_pos ha] at h
      obtain rfl : a = e := Option.some.inj h
      exact ⟨List.mem_cons_self a as, ha⟩
    · rw [if_neg ha] at h
      obtain ⟨hm, he⟩ := ih h
      exact ⟨List.mem_cons_of_mem a hm, he⟩

/-- If the exact-match pass fails, no entry's `d` equals the query. -/
theorem findExact_none {q : ℝ} : ∀ {entries : List (ℝ × ℝ)},
    findExact q entries = none → ∀ a ∈ entries, a.1 ≠ q := by
  intro entries
  induction entries with
  | nil => intro _ a ha; simp at ha
  | cons b bs ih =>
    intro h a ha
    simp only [findExact] at h
    by_cases hb : b.1 = q
    · rw [if_pos hb] at h; exact absurd h (by simp)
    · rw [if_neg hb] at h
      rcases List.mem_cons.mp ha with rfl | hmem
      · exact hb
      · exact ih h a hmem

/-- On a non-empty table the nearest-entry fallback returns the first entry
minimizing the absolute difference of `d` from the query: it is a minimizer,
and every entry at a strictly earlier index is strictly farther. -/
theorem closestEntry_spec (q : ℝ) : ∀ entries : List (ℝ × ℝ), entries ≠ [] →
    ∃ i e, entries.get? i = some e ∧ closestEntry q entries = some e ∧
      (∀ a ∈ entries, |e.1 - q| ≤ |a.1 - q|) ∧
      (∀ j, j < i → ∀ a, entries.get? j = some a → |e.1 - q| < |a.1 - q|) := by
  intro entries
  induction entries with
  | nil => intro h; exact absurd rfl h
  | cons b bs ih =>
    intro _
    cases bs with
    | nil =>
      refine ⟨0, b, rfl, by simp [closestEntry, closerOf], ?_, ?_⟩
      · intro a ha
        obtain rfl := List.mem_singleton.mp ha
        exact le_refl _
      · intro j hj
        exact absurd hj (Nat.not_lt_zero j)
    | cons c cs =>
      obtain ⟨i, e, hget, hclos, hmin, hstrict⟩ := ih (List.cons_ne_nil c cs)
      have hstep : closestEntry q (b :: c :: cs) = closerOf b q (closestEntry q (c :: cs)) := rfl
      rw [hstep, hclos]
      simp only [closerOf]
      by_cases hlt : |e.1 - q| < |b.1 - q|
      · rw [if_pos hlt]
        refine ⟨i + 1, e, by simpa using hget, rfl, ?_, ?_⟩
        · intro a ha
          rcases List.mem_cons.mp ha with rfl | hmem
          · exact le_of_lt hlt
          · exact hmin a hmem
        · intro j hj a hga
          cases j with
          | zero =>
            obtain rfl : b = a := Option.some.inj hga
            exact hlt
          | succ k =>
            exact hstrict k (by omega) a (by simpa using hga)
      · rw [if_neg hlt]
        refine ⟨0, b, rfl, rfl, ?_, ?_⟩
        · intro a ha
          rcases List.mem_cons.mp ha with rfl | hmem
          · exact le_refl _
          · exact le_trans (not_lt.mp hlt) (hmin a hmem)
        · intro j hj
          exact absurd hj (Nat.not_lt_zero j)

/-- On a non-empty table the coefficient lookup always produces a value. -/
theorem lookup_some_of_ne_nil {q : ℝ} {entries : List (ℝ × ℝ)} (h : entries ≠ []) :
    ∃ C, get_coefficient_of_discharge q entries = some C := by
  cases hfe : findExact q entries with
  | some e => exact ⟨e.2, by simp [get_coefficient_of_discharge, hfe]⟩
  | none =>
    obtain ⟨i, e, _, hclos, _, _⟩ := closestEntry_spec q entries h
    exact ⟨e.2, by simp [get_coefficient_of_discharge, hfe, hclos]⟩

/-- C4: for every rating curve with at least one entry and every query `d`,
`get_coefficient_of_discharge` returns the `C` of some table entry; when an
entry with stored `d` exactly equal to the query exists, the returned entry
is such an entry; otherwise the returned entry is the one whose stored `d`
has the smallest absolute difference from the query, ties broken by first
occurrence in table order (every earlier entry is strictly farther); and the
lookup never fails on a non-empty curve. -/
theorem C4_rating_lookup_exact_then_nearest (q : ℝ) (entries : List (ℝ × ℝ))
    (h : entries ≠ []) :
    ∃ e, e ∈ entries ∧ get_coefficient_of_discharge q entries = some e.2 ∧
      ((∃ a ∈ entries, a.1 = q) → e.1 = q) ∧
      ((∀ a ∈ entries, a.1 ≠ q) →
        (∀ a ∈ entries, |e.1 - q| ≤ |a.1 - q|) ∧
        ∃ i, entries.get? i = some e ∧
          ∀ j, j < i → ∀ a, entries.get? j = some a → |e.1 - q| < |a.1 - q|) := by
  cases hfe : findExact q entries with
  | some e =>
    obtain ⟨hmem, heq⟩ := findExact_mem_eq hfe
    exact ⟨e, hmem, by simp [get_coefficient_of_discharge, hfe], fun _ => heq,
      fun hno => absurd heq (hno e hmem)⟩
  | none =>
    obtain ⟨i, e, hget, hclos, hmin, hstrict⟩ := closestEntry_spec q entries h
    refine ⟨e, List.get?_mem hget,
      by simp [get_coefficient_of_discharge, hfe, hclos], ?_,
      fun _ => ⟨hmin, i, hget, hstrict⟩⟩
    intro hex
    obtain ⟨a, ha, haq⟩ := hex
    exact absurd haq (findExact_none hfe a ha)

/-- Witness for C4: the lookup on the one-entry Lawtonka test curve
`[(0.5, 0.62)]` with query `0.3`. -/
theorem C4_rating_lookup_exact_then_nearest_witness :
    ∃ e, e ∈ [((0.5 : ℝ), (0.62 : ℝ))] ∧
      get_coefficient_of_discharge 0.3 [((0.5 : ℝ), (0.62 : ℝ))] = some e.2 ∧
      ((∃ a ∈ [((0.5 : ℝ), (0.62 : ℝ))], a.1 = 0.3) → e.1 = 0.3) ∧
      ((∀ a ∈ [((0.5 : ℝ), (0.62 : ℝ))], a.1 ≠ 0.3) →
        (∀ a ∈ [((0.5 : ℝ), (0.62 : ℝ))], |e.1 - 0.3| ≤ |a.1 - 0.3|) ∧
        ∃ i, [((0.5 : ℝ), (0.62 : ℝ))].get? i = some e ∧
          ∀ j, j < i → ∀ a, [((0.5 : ℝ), (0.62 : ℝ))].get? j = some a →
            |e.1 - 0.3| < |a.1 - 0.3|) :=
  C4_rating_lookup_exact_then_nearest 0.3 [((0.5 : ℝ), (0.62 : ℝ))] (by simp)

/-- On a configured (non-empty) curve, a negative `H2` short-circuits
`calculate_flow` to the zero-flow branch. -/
theorem calculate_flow_eq_zero_of_H2_neg {d e : ℝ} {rc : RatingCurve}
    (hne : rc.entries ≠ []) (hH2 : e - spillway_invert_elevation rc - d < 0) :
    calculate_flow d e rc = some 0 := by
  obtain ⟨C, hC⟩ := lookup_some_of_ne_nil (q := d) hne
  simp [calculate_flow, hC, flowFormula, hH2]

/-- On an empty curve `calculate_flow` fails: the lookup raises before the
`H2 < 0` guard can return. -/
theorem calculate_flow_none_of_empty (d e : ℝ) (rc : RatingCurve)
    (h : rc.entries = []) : calculate_flow d e rc = none := by
  simp [calculate_flow, get_coefficient_of_discharge, h, findExact, closestEntry]

/-- C7: for every open gate (`gate_opening > 0`) on a configured (non-empty)
rating curve, whenever `H2 = lake_elevation - spillway_invert_elevation -
gate_opening` is negative — and in particular whenever the lake is below the
spillway invert (`H1 < 0`), which together with `gate_opening > 0` forces
`H2 < 0` — the per-gate flow is exactly `0`: `calculate_flow` returns on the
`H2 < 0` branch before evaluating any fractional power, so no fractional
power of a negative base is ever formed. -/
theorem C7_negative_head_zero_flow (d e : ℝ) (rc : RatingCurve)
    (hne : rc.entries ≠ []) (hd : 0 < d)
    (h : e - spillway_invert_elevation rc - d < 0 ∨ e - spillway_invert_elevation rc < 0) :
    calculate_flow d e rc = some 0 := by
  rcases h with h | h
  · exact calculate_flow_eq_zero_of_H2_neg hne h
  · exact calculate_flow_eq_zero_of_H2_neg hne (by linarith)

/-- Witness for C7: Lawtonka-named curve, gate open 0.5 ft, lake at 1335 ft
(below the 1335.55 ft invert). -/
theorem C7_negative_head_zero_flow_witness :
    calculate_flow 0.5 1335 ⟨[((0.5 : ℝ), (0.62 : ℝ))], true⟩ = some 0 :=
  C7_negative_head_zero_flow 0.5 1335 ⟨[((0.5 : ℝ), (0.62 : ℝ))], true⟩
    (by simp) (by norm_num) (Or.inr (by norm_num [spillway_invert_elevation]))

/-- C10: when a gate is open (`gate_opening > 0`) and `H2 < 0`, the per-gate
flow is `0` on every non-empty rating curve, so two runs against any two
non-empty curves return the same value — the result does not depend on the
curves' `C` entries — yet the rating-curve lookup is evaluated before the
`H2 < 0` guard, so the same computation fails on an empty curve even though
the flow would be `0`. -/
theorem C10_zero_flow_independent_of_curve (d e : ℝ) (rc₁ rc₂ rcE : RatingCurve)
    (_hd : 0 < d)
    (h₁ : e - spillway_invert_elevation rc₁ - d < 0)
    (h₂ : e - spillway_invert_elevation rc₂ - d < 0)
    (hne₁ : rc₁.entries ≠ []) (hne₂ : rc₂.entries ≠ []) (hE : rcE.entries = []) :
    calculate_flow d e rc₁ = calculate_flow d e rc₂ ∧
    calculate_flow d e rc₁ = some 0 ∧
    calculate_flow d e rcE = none := by
  have z₁ := calculate_flow_eq_zero_of_H2_neg hne₁ h₁
  have z₂ := calculate_flow_eq_zero_of_H2_neg hne₂ h₂
  exact ⟨z₁.trans z₂.symm, z₁, calculate_flow_none_of_empty d e rcE hE⟩

/-- Witness for C10: gate open 0.5 ft, lake at 1225.2 ft, one Lawtonka-named
one-entry curve, one Ellsworth-style two-entry curve, one empty curve. -/
theorem C10_zero_flow_independent_of_curve_witness :
    calculate_flow 0.5 1225.2 ⟨[((0.5 : ℝ), (0.62 : ℝ))], true⟩ =
      calculate_flow 0.5 1225.2 ⟨[((1 : ℝ), (0.7 : ℝ)), ((2 : ℝ), (0.68 : ℝ))], false⟩ ∧
    calculate_flow 0.5 1225.2 ⟨[((0.5 : ℝ), (0.62 : ℝ))], true⟩ = some 0 ∧
    calculate_flow 0.5 1225.2 (⟨[], true⟩ : RatingCurve) = none :=
  C10_zero_flow_independent_of_curve 0.5 1225.2 _ _ _
    (by norm_num)
    (by norm_num [spillway_invert_elevation])
    (by norm_num [spillway_invert_elevation])
    (by simp) (by simp) rfl

/-- C9: a gate cell with value ≤ 0 (a closed gate, including missing
readings coerced to 0) contributes exactly 0 to the observation's total
flow, and no rating-curve lookup is performed for it: removing the cell
leaves `calculate_total_flow` unchanged for every rating curve, including
the empty curve on which any lookup would fail. -/
theorem C9_closed_gate_contributes_nothing (e g : ℝ) (xs ys : List ℝ)
    (rc : RatingCurve) (hg : g ≤ 0) :
    calculate_total_flow e (xs ++ g :: ys) rc = calculate_total_flow e (xs ++ ys) rc := by
  have key : ∀ xs : List ℝ,
      sumGateFlows e rc (xs ++ g :: ys) = sumGateFlows e rc (xs ++ ys) := by
    intro xs
    induction xs with
    | nil =>
      simp only [List.nil_append, sumGateFlows]
      rw [if_neg (not_lt.mpr hg)]
    | cons x xs ih =>
      simp only [List.cons_append, sumGateFlows, List.append_eq]
      rw [ih]
  simp [calculate_total_flow, key xs]

/-- Witness for C9: a row slice with one open gate (0.5 ft) and one closed
gate (0) on the Lawtonka test curve. -/
theorem C9_closed_gate_contributes_nothing_witness :
    calculate_total_flow 1337 [0.5, 0] ⟨[((0.5 : ℝ), (0.62 : ℝ))], true⟩ =
      calculate_total_flow 1337 [0.5] ⟨[((0.5 : ℝ), (0.62 : ℝ))], true⟩ :=
  C9_closed_gate_contributes_nothing 1337 0 [0.5] [] ⟨[((0.5 : ℝ), (0.62 : ℝ))], true⟩
    (le_refl 0)

/-- The map `x ↦ x ^ (3/2)` is continuous. -/
theorem continuous_rpow32 : Continuous fun x : ℝ => x ^ ((3 : ℝ) / 2) := by
  rw [continuous_iff_continuousAt]
  intro x
  exact Real.continuousAt_rpow_const x _ (Or.inr (by norm_num))

/-- Derivative of `x ↦ x ^ (3/2)` (valid everywhere since the exponent is at
least 1). -/
theorem hasDerivAt_rpow32 (x : ℝ) :
    HasDerivAt (fun y : ℝ => y ^ ((3 : ℝ) / 2)) (((3 : ℝ) / 2) * x ^ ((3 : ℝ) / 2 - 1)) x :=
  Real.hasDerivAt_rpow_const (Or.inr (by norm_num))

/-- Derivative of the shifted map `x ↦ (x + d) ^ (3/2)`. -/
theorem hasDerivAt_rpow32_shift (d x : ℝ) :
    HasDerivAt (fun y : ℝ => (y + d) ^ ((3 : ℝ) / 2))
      (((3 : ℝ) / 2) * (x + d) ^ ((3 : ℝ) / 2 - 1)) x := by
  have h1 : HasDerivAt (fun y : ℝ => y + d) 1 x := (hasDerivAt_id x).add_const d
  have h2 : HasDerivAt (fun y : ℝ => y ^ ((3 : ℝ) / 2))
      (((3 : ℝ) / 2) * (x + d) ^ ((3 : ℝ) / 2 - 1)) (x + d) := hasDerivAt_rpow32 (x + d)
  simpa [Function.comp] using h2.comp x h1

/-- For a fixed shift `d ≥ 0`, the gap `(x + d)^(3/2) - x^(3/2)` grows with
`x` on the nonnegative half line (the weir formula's head difference term is
monotone in the head). -/
theorem shiftSub_monotoneOn (d : ℝ) (hd : 0 ≤ d) :
    MonotoneOn (fun x : ℝ => (x + d) ^ ((3 : ℝ) / 2) - x ^ ((3 : ℝ) / 2)) (Set.Ici 0) := by
  have hf : ∀ x : ℝ, HasDerivAt (fun x : ℝ => (x + d) ^ ((3 : ℝ) / 2) - x ^ ((3 : ℝ) / 2))
      (((3 : ℝ) / 2) * (x + d) ^ ((3 : ℝ) / 2 - 1) - ((3 : ℝ) / 2) * x ^ ((3 : ℝ) / 2 - 1)) x :=
    fun x => (hasDerivAt_rpow32_shift d x).sub (hasDerivAt_rpow32 x)
  apply monotoneOn_of_deriv_nonneg (convex_Ici 0)
  · exact (Continuous.sub (continuous_rpow32.comp (continuous_id.add continuous_const))
      continuous_rpow32).continuousOn
  · intro x _
    exact ((hf x).differentiableAt).differentiableWithinAt
  · intro x hx
    rw [interior_Ici] at hx
    rw [(hf x).deriv]
    have h1 : x ^ ((3 : ℝ) / 2 - 1) ≤ (x + d) ^ ((3 : ℝ) / 2 - 1) :=
      Real.rpow_le_rpow (le_of_lt hx) (by linarith) (by norm_num)
    have h2 := mul_le_mul_of_nonneg_left h1 (by norm_num : (0 : ℝ) ≤ (3 : ℝ) / 2)
    linarith

/-- Pointwise form of `shiftSub_monotoneOn`. -/
theorem rpow32_shift_sub_le (d : ℝ) (hd : 0 ≤ d) {x y : ℝ} (hx : 0 ≤ x) (hxy : x ≤ y) :
    (x + d) ^ ((3 : ℝ) / 2) - x ^ ((3 : ℝ) / 2) ≤ (y + d) ^ ((3 : ℝ) / 2) - y ^ ((3 : ℝ) / 2) :=
  shiftSub_monotoneOn d hd (Set.mem_Ici.mpr hx) (Set.mem_Ici.mpr (le_trans hx hxy)) hxy

/-- Same inequality with the upper heads given by equations, as they appear
in the flow formula (`H1 = H2 + gate_opening`). -/
theorem rpow32_sub_sub_mono {a₁ b₁ a₂ b₂ d : ℝ} (hd : 0 ≤ d) (hb₁ : 0 ≤ b₁)
    (hb : b₁ ≤ b₂) (ha₁ : a₁ = b₁ + d) (ha₂ : a₂ = b₂ + d) :
    a₁ ^ ((3 : ℝ) / 2) - b₁ ^ ((3 : ℝ) / 2) ≤ a₂ ^ ((3 : ℝ) / 2) - b₂ ^ ((3 : ℝ) / 2) := by
  subst ha₁
  subst ha₂
  exact rpow32_shift_sub_le d hd hb₁ hb

/-- The head-difference term of the formula is nonnegative whenever the
lower head is nonnegative and below the upper head. -/
theorem rpow32_diff_nonneg {a b : ℝ} (hb : 0 ≤ b) (hab : b ≤ a) :
    0 ≤ a ^ ((3 : ℝ) / 2) - b ^ ((3 : ℝ) / 2) := by
  have := Real.rpow_le_rpow hb hab (by norm_num : (0 : ℝ) ≤ (3 : ℝ) / 2)
  linarith

/-- Core monotonicity of the flow arithmetic: with a nonnegative coefficient
and a nonnegative gate opening, `flowFormula` is non-decreasing in the lake
elevation, across the `H2` sign boundary included. -/
theorem flowFormula_mono (C d : ℝ) (rc : RatingCurve) (hC : 0 ≤ C) (hd : 0 ≤ d)
    {e₁ e₂ : ℝ} (he : e₁ ≤ e₂) :
    flowFormula C d e₁ rc ≤ flowFormula C d e₂ rc := by
  have hK : 0 ≤ (2 : ℝ) / 3 * (32.2 : ℝ) ^ (0.5 : ℝ) * C * 20.0 :=
    mul_nonneg (mul_nonneg (mul_nonneg (by norm_num)
      (Real.rpow_nonneg (by norm_num) _)) hC) (by norm_num)
  simp only [flowFormula]
  by_cases h1 : e₁ - spillway_invert_elevation rc - d < 0
  · rw [if_pos h1]
    by_cases h2 : e₂ - spillway_invert_elevation rc - d < 0
    · rw [if_pos h2]
    · rw [if_neg h2]
      exact mul_nonneg hK (rpow32_diff_nonneg (not_lt.mp h2) (by linarith))
  · rw [if_neg h1]
    by_cases h2 : e₂ - spillway_invert_elevation rc - d < 0
    · exact absurd (lt_of_le_of_lt (by linarith : e₁ - spillway_invert_elevation rc - d ≤
        e₂ - spillway_invert_elevation rc - d) h2) h1
    · rw [if_neg h2]
      refine mul_le_mul_of_nonneg_left ?_ hK
      exact rpow32_sub_sub_mono hd (not_lt.mp h1) (by linarith) (by ring) (by ring)

/-- C8: holding the coefficient fixed (via a fixed successful lookup result
`C ≥ 0`), the gate length (a constant of the code) and the gate opening
(`≥ 0`, the invariant of gate-opening readings) fixed, the per-gate flow is
non-decreasing in the lake elevation: for `e₁ ≤ e₂` the flow at `e₁` is at
most the flow at `e₂`, including across the boundary where `H2` changes
sign. -/
theorem C8_flow_monotone_in_elevation (d e₁ e₂ C : ℝ) (rc : RatingCurve)
    (hC : get_coefficient_of_discharge d rc.entries = some C) (hC0 : 0 ≤ C)
    (hd : 0 ≤ d) (he : e₁ ≤ e₂) :
    ∃ f₁ f₂, calculate_flow d e₁ rc = some f₁ ∧ calculate_flow d e₂ rc = some f₂ ∧
      f₁ ≤ f₂ := by
  refine ⟨flowFormula C d e₁ rc, flowFormula C d e₂ rc, ?_, ?_,
    flowFormula_mono C d rc hC0 hd he⟩ <;> simp [calculate_flow, hC]

/-- Witness for C8: the Lawtonka test curve with lake elevations 1336.5 and
1337 and a 0.5 ft opening. -/
theorem C8_flow_monotone_in_elevation_witness :
    ∃ f₁ f₂, calculate_flow 0.5 1336.5 ⟨[((0.5 : ℝ), (0.62 : ℝ))], true⟩ = some f₁ ∧
      calculate_flow 0.5 1337 ⟨[((0.5 : ℝ), (0.62 : ℝ))], true⟩ = some f₂ ∧ f₁ ≤ f₂ :=
  C8_flow_monotone_in_elevation 0.5 1336.5 1337 0.62 ⟨[((0.5 : ℝ), (0.62 : ℝ))], true⟩
    (by simp [get_coefficient_of_discharge, findExact]) (by norm_num) (by norm_num)
    (by norm_num)

/-- C5 counterexample: the claimed mapping table is false as stated, because
`normalize_time_string "123"` is `"01:23:00"` (the code zero-pads the hour
with `f"{int(s[0]):02}"`), not the `"1:23:00"` of the claim and of the
function's own docstring. -/
theorem C5_counterexample :
    ¬ (normalize_time_string "123" = "1:23:00" ∧
       normalize_time_string "1234" = "12:34:00" ∧
       normalize_time_string "1:24P" = "13:24:00" ∧
       normalize_time_string "1:24A" = "01:24:00" ∧
       normalize_time_string "12:34" = "12:34:00") := by
  intro h
  exact absurd h.1 (by decide)

/-- C5 amended: the time normalizer maps `"123"` to `"01:23:00"` (the
zero-padded form actually produced), and the remaining four recognized
shapes exactly as claimed. -/
theorem C5_amended_time_mappings :
    normalize_time_string "123" = "01:23:00" ∧
    normalize_time_string "1234" = "12:34:00" ∧
    normalize_time_string "1:24P" = "13:24:00" ∧
    normalize_time_string "1:24A" = "01:24:00" ∧
    normalize_time_string "12:34" = "12:34:00" := by
  refine ⟨?_, ?_, ?_, ?_, ?_⟩ <;> decide

/-- C2 counterexample: the emitted sequence is not ascending regardless of
input order — `write_to_dss` performs no sorting, so a two-row dataframe
with timestamps out of order is handed to the sink out of order. -/
theorem C2_counterexample :
    ¬ List.Chain' (· < ·)
      ((write_to_dss [((2 : ℤ), (10 : ℝ)), ((1 : ℤ), (20 : ℝ))] "/LAWTONKA/").times) := by
  intro h
  simp only [write_to_dss, List.map] at h
  rw [List.chain'_cons] at h
  exact absurd h.1 (by norm_num)

/-- C2 amended: the records handed to the sink are exactly the dataframe's
(timestamp, total flow) rows in input order — no reordering happens between
`set_index` and the sink — so the emitted sequence is strictly ascending by
timestamp if and only if the retained observations' timestamps are already
strictly ascending in input order. -/
theorem C2_emission_preserves_input_order (df : List (ℤ × ℝ)) (p : String) :
    (write_to_dss df p).times = df.map Prod.fst ∧
    (write_to_dss df p).values = df.map Prod.snd ∧
    (List.Chain' (· < ·) (write_to_dss df p).times ↔
      List.Chain' (· < ·) (df.map Prod.fst)) :=
  ⟨rfl, rfl, Iff.rfl⟩

/-- C3 evidence: the inches-to-feet recipe is applied from column 2 on, and
column 2 is the `Lake Elevation` column, so a lake elevation of 1337.00 ft
is rewritten to 111.42 (divided by 12 and rounded) before the flow formula
reads it, while the gate cell `6"` becomes 0.5 ft as intended. -/
theorem C3_lake_elevation_rescaled :
    apply_inches_to_feet
        [Cell.str "2020-05-01", Cell.str "08:00:00", Cell.num 1337, Cell.nan, Cell.str "6\""] =
      [Cell.str "2020-05-01", Cell.str "08:00:00", Cell.num 111.42, Cell.num 0, Cell.num 0.5] ∧
    (111.42 : ℚ) ≠ 1337 := by
  have h1 : convertCell (Cell.num 1337) = 111.42 := by
    simp [convertCell, fillna0, stripQuoteChars, coerceNum]
    norm_num [round2Q, round_eq]
  have h2 : convertCell Cell.nan = 0 := by
    simp [convertCell, fillna0, stripQuoteChars, coerceNum]
    norm_num [round2Q, round_eq]
  have h3 : convertCell (Cell.str "6\"") = 0.5 := by
    simp [convertCell, fillna0, stripQuoteChars, coerceNum, parseRat, pyStrip,
      parseNatDigits, digitVal]
    norm_num [round2Q, round_eq]
  constructor
  · simp [apply_inches_to_feet, h1, h2, h3]
  · norm_num

/-- C1 evidence: on the Lawtonka test curve with entry (0.5, 0.62), gate
opening 0.5 ft and lake elevation 1337.00 ft (H1 = 1.45, H2 = 0.95), the
code returns `(2/3) * 32.2**0.5 * C * L * (H1**1.5 - H2**1.5)` — with the
square root of `g` alone — and that value is strictly smaller than the
`(2/3) * sqrt(2*g) * C * L * (H1**1.5 - H2**1.5)` demanded by the claim and
by the script's own docstring. -/
theorem C1_flow_uses_sqrt_g_not_sqrt_2g :
    calculate_flow 0.5 1337 ⟨[((0.5 : ℝ), (0.62 : ℝ))], true⟩ =
      some ((2 / 3) * (32.2 : ℝ) ^ (0.5 : ℝ) * 0.62 * 20.0 *
        ((1.45 : ℝ) ^ ((3 : ℝ) / 2) - (0.95 : ℝ) ^ ((3 : ℝ) / 2))) ∧
    (2 / 3) * (32.2 : ℝ) ^ (0.5 : ℝ) * 0.62 * 20.0 *
        ((1.45 : ℝ) ^ ((3 : ℝ) / 2) - (0.95 : ℝ) ^ ((3 : ℝ) / 2)) <
      (2 / 3) * Real.sqrt (2 * 32.2) * 0.62 * 20.0 *
        ((1.45 : ℝ) ^ ((3 : ℝ) / 2) - (0.95 : ℝ) ^ ((3 : ℝ) / 2)) := by
  constructor
  · have hg : (1337 : ℝ) - 1335.55 - 0.5 < 0 ↔ False := by norm_num
    norm_num [calculate_flow, get_coefficient_of_discharge, findExact, flowFormula,
      spillway_invert_elevation]
  · have hD : 0 < (1.45 : ℝ) ^ ((3 : ℝ) / 2) - (0.95 : ℝ) ^ ((3 : ℝ) / 2) :=
      sub_pos.mpr (Real.rpow_lt_rpow (by norm_num) (by norm_num) (by norm_num))
    have hs : (32.2 : ℝ) ^ (0.5 : ℝ) < Real.sqrt (2 * 32.2) := by
      rw [Real.sqrt_eq_rpow]
      have h05 : (0.5 : ℝ) = 1 / 2 := by norm_num
      rw [h05]
      exact Real.rpow_lt_rpow (by norm_num) (by norm_num) (by norm_num)
    have step1 : (2 / 3 : ℝ) * (32.2 : ℝ) ^ (0.5 : ℝ) < 2 / 3 * Real.sqrt (2 * 32.2) :=
      mul_lt_mul_of_pos_left hs (by norm_num)
    have step2 := mul_lt_mul_of_pos_right step1 (by norm_num : (0 : ℝ) < 0.62)
    have step3 := mul_lt_mul_of_pos_right step2 (by norm_num : (0 : ℝ) < 20.0)
    exact mul_lt_mul_of_pos_right step3 hD

/-- Appending one row to the block only appends one row (with a possibly
forward-filled date but the same time and lake cells) to the forward-filled
block. -/
theorem ffill_dates_append_single (rows : List RawRow) :
    ∀ (last : Option String) (rd : Option String) (rt : Option String) (rl : Option ℚ),
    ∃ d, ffill_dates last (rows ++ [⟨rd, rt, rl⟩]) =
      ffill_dates last rows ++ [⟨d, rt, rl⟩] := by
  induction rows with
  | nil =>
    intro last rd rt rl
    cases rd with
    | none => exact ⟨last, by simp [ffill_dates]⟩
    | some dd => exact ⟨some dd, by simp [ffill_dates]⟩
  | cons x xs ih =>
    intro last rd rt rl
    cases hx : x.date with
    | some dd =>
      obtain ⟨d, hd2⟩ := ih (some dd) rd rt rl
      exact ⟨d, by simp [ffill_dates, hx, hd2]⟩
    | none =>
      obtain ⟨d, hd2⟩ := ih last rd rt rl
      exact ⟨d, by simp [ffill_dates, hx, hd2]⟩

/-- A row whose time or lake-elevation cell is missing is dropped locally:
appending it to any input block leaves the produced observation stream
untouched. -/
theorem observation_stream_snoc_dropped (T : Type) (parse : String → Option T)
    (last : Option String) (rows : List RawRow) (r : RawRow)
    (h : r.time = none ∨ r.lake = none) :
    observation_stream T parse last (rows ++ [r]) = observation_stream T parse last rows := by
  obtain ⟨rd, rt, rl⟩ := r
  obtain ⟨d, hd2⟩ := ffill_dates_append_single rows last rd rt rl
  simp only [observation_stream, hd2, drop_missing_time_or_elev, List.filter_append]
  have hsingle : List.filter (fun r : RawRow => r.time.isSome && r.lake.isSome)
      [(⟨d, rt, rl⟩ : RawRow)] = [] := by
    rcases h with h | h
    · simp only at h
      simp [List.filter, h]
    · simp only at h
      simp [List.filter, h]
  rw [hsingle, List.append_nil]

/-- C6: a repaired row survives into the observation stream only if its time
parses and its lake elevation is present (first conjunct); and a row missing
its time — even with a forward-fillable date and a present lake elevation —
or missing its lake elevation is dropped locally, leaving the rest of the
stream untouched and never aborting the pipeline (second and third
conjuncts). -/
theorem C6_row_retention (T : Type) (parse : String → Option T)
    (last : Option String) (rows : List RawRow) :
    (∀ r ∈ observation_stream T parse last rows, r.ptime.isSome ∧ r.lake.isSome) ∧
    (∀ r : RawRow, r.time = none →
      observation_stream T parse last (rows ++ [r]) = observation_stream T parse last rows) ∧
    (∀ r : RawRow, r.lake = none →
      observation_stream T parse last (rows ++ [r]) = observation_stream T parse last rows) := by
  refine ⟨?_, ?_, ?_⟩
  · intro r hr
    simp only [observation_stream, drop_unparsed, List.mem_filter, Bool.and_eq_true] at hr
    exact ⟨hr.2.1, hr.2.2⟩
  · intro r hr
    exact observation_stream_snoc_dropped T parse last rows r (Or.inl hr)
  · intro r hr
    exact observation_stream_snoc_dropped T parse last rows r (Or.inr hr)

/-- Witness for C6: a well-formed row followed by a row with no time, a
forward-fillable date and a present lake elevation; the second row is
dropped. -/
theorem C6_row_retention_witness :
    observation_stream ℕ (fun _ => some 0) none
        [⟨some "2020-05-01", some "800", some 1337⟩, ⟨none, none, some 1337⟩] =
      observation_stream ℕ (fun _ => some 0) none
        [⟨some "2020-05-01", some "800", some 1337⟩] :=
  (C6_row_retention ℕ (fun _ => some 0) none
      [⟨some "2020-05-01", some "800", some 1337⟩]).2.1 ⟨none, none, some 1337⟩ rfl
